import Mathlib

/-!
Verification of the `ic-canister-stable-storage` and `dscvr-canister-agent`
stable-storage layer of the metamagic repository: a shallow embedding of the
header codec, the v1/v2 layouts, the migration helpers and the chunked
backup/restore orchestrator, together with proofs about their behaviour.

Machine integers (`u64`) are modelled as `Nat`; bytes (`u8`) as `Nat` values
below 256.  Fallible Rust code returns `Except`/`Option`; code that can
additionally panic (out-of-bounds indexing) returns an `Outcome` with a
distinguished `panicked` result.
-/

namespace StableStorage

/-- Outcome of running a piece of Rust code that may return a value, return an
error, or panic (e.g. through an out-of-bounds slice index). -/
inductive Outcome (ε α : Type) where
  | ok (a : α)
  | err (e : ε)
  | panicked
deriving DecidableEq

/-- Little-endian byte encoding of a natural number on `n` bytes; models
`u64::to_le_bytes` when `n = 8` (the value is reduced modulo `2 ^ 64` by the
successive `% 256`, as the `u64` wrap does). -/
def natToLE : Nat → Nat → List Nat
  | 0, _ => []
  | n + 1, v => v % 256 :: natToLE n (v / 256)

/-- Little-endian decoding of a byte list; models `u64::from_le_bytes` on an
8-byte list. -/
def leToNat : List Nat → Nat
  | [] => 0
  | b :: bs => b + 256 * leToNat bs

/-- Content format tag stored in the header; `DataFormatType` in
`data_format.rs` (`repr(u64)`: `Unknown = 0`, `MsgPack = 1`, `Bincode = 2`). -/
inductive DataFormatType where
  | Unknown
  | MsgPack
  | Bincode
deriving DecidableEq

/-- Numeric value of a `DataFormatType` (the `repr(u64)` discriminant, as used
by `header.content_format as u64`). -/
def DataFormatType.toU64 : DataFormatType → Nat
  | .Unknown => 0
  | .MsgPack => 1
  | .Bincode => 2

/-- The `From<u64> for DataFormatType` impl of `data_format.rs`: `1` maps to
`MsgPack`, `2` to `Bincode`, everything else to `Unknown`. -/
def DataFormatType.ofU64 (value : Nat) : DataFormatType :=
  if value = 1 then .MsgPack
  else if value = 2 then .Bincode
  else .Unknown

/-- Errors of the header codec (`header::Error` in `header.rs`). -/
inductive HeaderError where
  | InvalidContentFormat (value : Nat)
  | Io
  | InvalidHeaderLength (declared expected : Nat)
deriving DecidableEq

/-- The stable-storage header (`Header` in `header.rs`). -/
structure Header where
  header_length : Nat
  content_length : Nat
  content_format : DataFormatType
  content_schema_version : Nat
  pre_upgrade_instruction_count : Nat
deriving DecidableEq

/-- `FieldIndex::NumFields as u64`: the compiled number of content fields of
the header (content_length, content_format, content_schema_version,
pre_upgrade_instruction_count). -/
def NumFields : Nat := 4

/-- `Header::read_u64`: read one little-endian `u64` (8 bytes) from the front
of the input; `None` models the `Io` error of a short `read_exact`. -/
def read_u64 : List Nat → Option (Nat × List Nat)
  | b0 :: b1 :: b2 :: b3 :: b4 :: b5 :: b6 :: b7 :: rest =>
    some (leToNat [b0, b1, b2, b3, b4, b5, b6, b7], rest)
  | _ => none

/-- `Header::read_n_u64`: read `count` little-endian `u64`s.  The source reads
`count * 8` bytes with one `read_exact` and splits them with `bytes_to_u64`;
reading the words one at a time yields the same values, the same remaining
input and the same error condition. -/
def read_n_u64 : Nat → List Nat → Option (List Nat × List Nat)
  | 0, input => some ([], input)
  | n + 1, input =>
    match read_u64 input with
    | none => none
    | some (v, rest) =>
      match read_n_u64 n rest with
      | none => none
      | some (vs, rest') => some (v :: vs, rest')

/-- `Header::new_from_vec`.  The source indexes `fields[1]` (format tag),
`fields[0]`, `fields[2]`, `fields[3]`, and passes `fields[3]` to the
`InvalidContentFormat` error; with fewer than 4 fields every control path hits
one of those indices out of bounds, which panics: that case is `panicked`. -/
def Header.new_from_vec (fields : List Nat) : Outcome HeaderError Header :=
  match fields with
  | f0 :: f1 :: f2 :: f3 :: _ =>
    let content_format := DataFormatType.ofU64 f1
    if content_format = DataFormatType.Unknown then
      Outcome.err (HeaderError.InvalidContentFormat f3)
    else
      Outcome.ok
        { header_length := fields.length
          content_length := f0
          content_format := content_format
          content_schema_version := f2
          pre_upgrade_instruction_count := f3 }
  | _ => Outcome.panicked

/-- `Header::new_from_reader`, returning the decoded header together with the
number of bytes consumed from the reader. -/
def Header.new_from_reader (input : List Nat) : Outcome HeaderError (Header × Nat) :=
  match read_u64 input with
  | none => Outcome.err HeaderError.Io
  | some (header_length, rest) =>
    if NumFields < header_length then
      Outcome.err (HeaderError.InvalidHeaderLength header_length NumFields)
    else
      match read_n_u64 header_length rest with
      | none => Outcome.err HeaderError.Io
      | some (fields, _) =>
        match Header.new_from_vec fields with
        | Outcome.ok h => Outcome.ok (h, 8 + header_length * 8)
        | Outcome.err e => Outcome.err e
        | Outcome.panicked => Outcome.panicked

/-- `Header::as_bytes`: `NumFields` followed by the four content fields, each
encoded as a little-endian `u64`. -/
def Header.as_bytes (h : Header) : List Nat :=
  natToLE 8 NumFields ++ natToLE 8 h.content_length ++
    natToLE 8 h.content_format.toU64 ++ natToLE 8 h.content_schema_version ++
    natToLE 8 h.pre_upgrade_instruction_count

/-- `Header::num_all_fields_bytes`: byte size of a maximal header. -/
def Header.num_all_fields_bytes (_ : Header) : Nat := (NumFields + 1) * 8

/-- `Header::num_content_and_header_bytes`. -/
def Header.num_content_and_header_bytes (h : Header) : Nat :=
  h.header_length * 8 + 8 + h.content_length

/-- A valid header (per claim C2: `header_length ≤ NumFields`, format not
`Unknown`) whose `header_length` is 0. -/
def hdrLenZero : Header :=
  { header_length := 0
    content_length := 0
    content_format := DataFormatType.MsgPack
    content_schema_version := 0
    pre_upgrade_instruction_count := 0 }

/-- Transient, non-persisted stable-storage state (`transient.rs`). -/
structure Transient where
  skip_next_save : Bool
  post_upgrade_instruction_count : Nat
deriving DecidableEq

/-- The `dscvr_interface::Interface` collaborator, reduced to the one
observation the stable-storage code reads from it: the instruction counter
(the memory-usage reading is only logged and is omitted). -/
structure Interface where
  instruction_counter : Nat

/-- A serde data-format adapter (`SerdeDataFormat` in `data_format.rs`),
abstracted: `enc` produces the encoded bytes of a value (`none` models a
serialize error) and `dec` consumes a prefix of a byte stream, returning the
decoded value and the number of bytes consumed (`none` models a decode
error). -/
structure SerdeCodec (T : Type) where
  enc : T → Option (List Nat)
  dec : List Nat → Option (T × Nat)

/-- The adapter selected by a format tag, mirroring the
`match header.content_format` dispatches of `v2.rs`. -/
def selectCodec {T : Type} (mp bc : SerdeCodec T) : DataFormatType → Option (SerdeCodec T)
  | DataFormatType.MsgPack => some mp
  | DataFormatType.Bincode => some bc
  | DataFormatType.Unknown => none

/-- In-memory seekable byte stream (the `Write + Seek` / `Read + Seek`
resource of `v1.rs`/`v2.rs`, e.g. a `Cursor<Vec<u8>>`): byte data plus the
current stream position. -/
structure ByteCursor where
  data : List Nat
  pos : Nat
deriving DecidableEq

/-- Writing `bs` at absolute position `pos` of `data`, zero-filling any gap
between the end of `data` and `pos` (the seek-past-end-then-write behaviour
of an in-memory cursor). -/
def writeAt (data : List Nat) (pos : Nat) (bs : List Nat) : List Nat :=
  let padded := data ++ List.replicate (pos - data.length) 0
  padded.take pos ++ bs ++ padded.drop (pos + bs.length)

/-- `Seek::seek(SeekFrom::Start(p))`. -/
def ByteCursor.seek (w : ByteCursor) (p : Nat) : ByteCursor := ⟨w.data, p⟩

/-- `Write::write_all` at the current position. -/
def ByteCursor.write (w : ByteCursor) (bs : List Nat) : ByteCursor :=
  ⟨writeAt w.data w.pos bs, w.pos + bs.length⟩

/-- `Seek::stream_position`. -/
def ByteCursor.streamPosition (w : ByteCursor) : Nat := w.pos

/-- Stable-storage errors (`Error` in `lib.rs`): a header error, or a wrapped
adapter (msgpack/bincode) encode/decode error, collapsed to `serde`. -/
inductive SsError where
  | header (e : HeaderError)
  | serde
deriving DecidableEq

/-- `v2::save` (`v2.rs`): skip entirely when `transient.skip_next_save` is
set; otherwise reserve `num_all_fields_bytes` bytes, encode the value with
the adapter selected by `header.content_format`, measure the bytes written,
backfill `content_length` and `pre_upgrade_instruction_count`, seek back and
write the header into the reserved region. -/
def v2_save {T : Type} (mp bc : SerdeCodec T) (intf : Interface) (w : ByteCursor)
    (t : T) (header : Header) (transient : Transient) : Except SsError ByteCursor :=
  if transient.skip_next_save then Except.ok w
  else
    let header_len := header.num_all_fields_bytes
    let start_pos := w.streamPosition
    let w1 := w.seek (start_pos + header_len)
    let encoded : Except SsError (List Nat) :=
      match header.content_format with
      | DataFormatType.MsgPack =>
        match mp.enc t with
        | some bs => Except.ok bs
        | none => Except.error SsError.serde
      | DataFormatType.Bincode =>
        match bc.enc t with
        | some bs => Except.ok bs
        | none => Except.error SsError.serde
      | DataFormatType.Unknown =>
        Except.error (SsError.header
          (HeaderError.InvalidContentFormat DataFormatType.Unknown.toU64))
    match encoded with
    | Except.error e => Except.error e
    | Except.ok bs =>
      let w2 := w1.write bs
      let content_end_pos := w2.streamPosition
      let header2 := { header with
        content_length := content_end_pos - start_pos - header_len
        pre_upgrade_instruction_count := intf.instruction_counter }
      let w3 := w2.seek start_pos
      Except.ok (w3.write header2.as_bytes)

/-- `v2::restore` (`v2.rs`): decode the header, then decode the content with
the adapter selected by the decoded format tag, and return the header, a
fresh `Transient` carrying the observed instruction counter, and the value.
The consumed-content-length comparison against `header.content_length` is
only logged as a warning (`warn!`), so the result does not depend on it; the
`set_stored_schema_version` side effect feeds the migration layer modelled
separately by `deserialize_default_if_lt_version`. -/
def v2_restore {T : Type} (mp bc : SerdeCodec T) (intf : Interface) (r : ByteCursor) :
    Outcome SsError (Header × Transient × T) :=
  match Header.new_from_reader (r.data.drop r.pos) with
  | Outcome.panicked => Outcome.panicked
  | Outcome.err e => Outcome.err (SsError.header e)
  | Outcome.ok (header, consumed) =>
    let r1 : ByteCursor := ⟨r.data, r.pos + consumed⟩
    let decoded : Except SsError (T × Nat) :=
      match header.content_format with
      | DataFormatType.MsgPack =>
        match mp.dec (r1.data.drop r1.pos) with
        | some tn => Except.ok tn
        | none => Except.error SsError.serde
      | DataFormatType.Bincode =>
        match bc.dec (r1.data.drop r1.pos) with
        | some tn => Except.ok tn
        | none => Except.error SsError.serde
      | DataFormatType.Unknown =>
        Except.error (SsError.header
          (HeaderError.InvalidContentFormat DataFormatType.Unknown.toU64))
    match decoded with
    | Except.error e => Outcome.err e
    | Except.ok (t, _n) =>
      Outcome.ok (header, ⟨false, intf.instruction_counter⟩, t)

/-- `v1::restore` (`v1.rs`): decode with the MsgPack adapter, then synthesize
a `Header` from the reader's stream position, a fixed `MsgPack` tag and
`Default` for the remaining fields, and a fresh `Transient`. -/
def v1_restore {T : Type} (mp : SerdeCodec T) (intf : Interface) (r : ByteCursor) :
    Except SsError (Header × Transient × T) :=
  match mp.dec (r.data.drop r.pos) with
  | none => Except.error SsError.serde
  | some (t, n) =>
    let r1 : ByteCursor := ⟨r.data, r.pos + n⟩
    let header : Header :=
      { header_length := 0
        content_length := r1.streamPosition
        content_format := DataFormatType.MsgPack
        content_schema_version := 0
        pre_upgrade_instruction_count := 0 }
    Except.ok (header, ⟨false, intf.instruction_counter⟩, t)

/-- `migration::deserialize_default_if_lt_version` (`migration.rs`), with the
thread-local stored schema version threaded explicitly: below the target
version, produce the default without touching the deserializer; otherwise run
the ordinary decode; either way, wrap errors with the diagnostic tag. -/
def deserialize_default_if_lt_version {T D : Type} (VERSION DEBUG_TAG : Nat)
    (stored_schema_version : Nat) (dflt : T)
    (deserializeT : D → Except String (T × D)) (d : D) : Except String (T × D) :=
  let ret :=
    if stored_schema_version < VERSION then Except.ok (dflt, d)
    else deserializeT d
  ret.mapError fun e => "Migration error. Tag " ++ toString DEBUG_TAG ++ " Error: " ++ e

/-- `BACKUP_CHUNK_SIZE` (`stable_storage_restore_backup.rs`): 2.5 MB. -/
def BACKUP_CHUNK_SIZE : Nat := 1024 * 1024 * 5 / 2

/-- `RESTORE_CHUNK_SIZE` (`stable_storage_restore_backup.rs`). -/
def RESTORE_CHUNK_SIZE : Nat := 2096000

/-- Errors of the backup/restore orchestrator (`ErrorKind` in
`stable_storage_restore_backup.rs`). -/
inductive ErrorKind where
  | BackupLengthMismatch (expected actual : Nat)
  | CanisterStableStorageNotInitialized
deriving DecidableEq

/-- `CanisterAgent::backup_stable_storage_chunk`: an empty result when the
window offset is at or past the end, otherwise the remote's response to
`backup_stable_storage(offset, min(BACKUP_CHUNK_SIZE, len - offset))`;
`fetch offset limit` models the remote query response. -/
def backup_stable_storage_chunk (fetch : Nat → Nat → List Nat) (offset len : Nat) :
    List Nat :=
  if len ≤ offset then []
  else fetch offset (min BACKUP_CHUNK_SIZE (len - offset))

/-- The window results of one backup run, in window-index order: window `idx`
starts at offset `idx * BACKUP_CHUNK_SIZE`, and `len / BACKUP_CHUNK_SIZE + 1`
windows are issued. -/
def backupWindows (fetch : Nat → Nat → List Nat) (len : Nat) : List (List Nat) :=
  (List.range (len / BACKUP_CHUNK_SIZE + 1)).map fun idx =>
    backup_stable_storage_chunk fetch (idx * BACKUP_CHUNK_SIZE) len

/-- `CanisterAgent::backup_stable_storage`: fail when the remote header's
format is `Unknown`; otherwise fetch all windows of the
`num_all_fields_bytes + content_length`-byte region, stream them to the sink,
and fail with `BackupLengthMismatch(expected, actual)` when the accumulated
byte count disagrees with the region size.  On success the value is the
sink's contents. -/
def backup_stable_storage (fetch : Nat → Nat → List Nat) (header : Header) :
    Except ErrorKind (List Nat) :=
  if header.content_format = DataFormatType.Unknown then
    Except.error ErrorKind.CanisterStableStorageNotInitialized
  else
    let len := header.num_all_fields_bytes + header.content_length
    let chunks := backupWindows fetch len
    let total_written := (chunks.map List.length).sum
    if total_written = len then Except.ok chunks.flatten
    else Except.error (ErrorKind.BackupLengthMismatch len total_written)

/-- Remote canister calls issued by the restore orchestrator
(`stable_storage_restore_backup.rs` updates; the interface functions they
reach live in `interface.rs`). -/
inductive RemoteCall where
  | initStableStorage (len : Nat)
  | restoreStableStorage (offset : Nat) (bytes : List Nat)
  | setRestoreFromStableStorage (flag : Bool)
deriving DecidableEq

/-- Rust `(start..stop).step_by(step)` for positive `step`. -/
def stepOffsets (start stop step : Nat) : List Nat :=
  (List.range ((stop - start + step - 1) / step)).map fun i => start + i * step

/-- The window-reading loop of `restore_stable_storage`: for each offset,
`read_exact` of `min(RESTORE_CHUNK_SIZE, content_length - (offset -
header_bytes_len))` bytes from the reader; `none` models the error of a
short read. -/
def readRestoreWindows (content_length header_bytes_len : Nat) :
    List Nat → List Nat → Option (List (Nat × List Nat))
  | [], _ => some []
  | offset :: offsets, buf =>
    let size := min RESTORE_CHUNK_SIZE (content_length - (offset - header_bytes_len))
    if size ≤ buf.length then
      Option.map (fun ws => (offset, buf.take size) :: ws)
        (readRestoreWindows content_length header_bytes_len offsets (buf.drop size))
    else none

/-- The upload phase of `CanisterAgent::restore_stable_storage`, modelled as
the sequence of remote calls it issues: decode the header from the input
stream, grow the remote to `len = num_content_and_header_bytes`, upload the
header bytes at offset 0, and upload the content windows (each carrying its
absolute offset). -/
def restore_upload_calls (input : List Nat) (restore_offest : Option Nat) :
    Outcome HeaderError (List RemoteCall) :=
  match Header.new_from_reader input with
  | Outcome.panicked => Outcome.panicked
  | Outcome.err e => Outcome.err e
  | Outcome.ok (header, consumed) =>
    match readRestoreWindows header.content_length header.as_bytes.length
        (stepOffsets (restore_offest.getD header.as_bytes.length)
          header.num_content_and_header_bytes RESTORE_CHUNK_SIZE)
        (input.drop consumed) with
    | none => Outcome.err HeaderError.Io
    | some windows =>
      Outcome.ok
        (RemoteCall.initStableStorage header.num_content_and_header_bytes ::
          RemoteCall.restoreStableStorage 0 header.as_bytes ::
          windows.map (fun w => RemoteCall.restoreStableStorage w.1 w.2))

/-- `CanisterAgent::restore_stable_storage` on the path where every window
upload succeeds: the upload phase above followed by the final
`set_restore_from_stable_storage` call with the literal `true` the source
encodes (`candid::Encode!(&true)`). -/
def restore_stable_storage_calls (input : List Nat) (restore_offest : Option Nat) :
    Outcome HeaderError (List RemoteCall) :=
  match restore_upload_calls input restore_offest with
  | Outcome.ok calls =>
    Outcome.ok (calls ++ [RemoteCall.setRestoreFromStableStorage true])
  | Outcome.err e => Outcome.err e
  | Outcome.panicked => Outcome.panicked

/-- `WASM_PAGE_SIZE_IN_BYTES` (`lib.rs`). -/
def WASM_PAGE_SIZE_IN_BYTES : Nat := 64 * 1024

/-- Remote canister state addressed by the stable-storage interface
(`interface.rs`): the stable memory bytes and the thread-local `Transient`. -/
structure Remote where
  mem : List Nat
  transient : Transient
deriving DecidableEq

/-- `interface::init_stable_storage`: grow stable memory by
`len / WASM_PAGE_SIZE_IN_BYTES + 1` pages when that exceeds the current page
count; never shrinks. -/
def remote_init_stable_storage (len : Nat) (r : Remote) : Remote :=
  let page_count := len / WASM_PAGE_SIZE_IN_BYTES + 1
  let current := r.mem.length / WASM_PAGE_SIZE_IN_BYTES
  if current < page_count then
    { r with mem := r.mem ++ List.replicate (page_count * WASM_PAGE_SIZE_IN_BYTES) 0 }
  else r

/-- `interface::restore_stable_storage`: write bytes at an absolute offset of
stable memory (`stable64_write`). -/
def remote_restore_stable_storage (offset : Nat) (bytes : List Nat) (r : Remote) :
    Remote :=
  { r with mem := writeAt r.mem offset bytes }

/-- `interface::set_restore_from_stable_storage`: set the transient
`skip_next_save` flag to the given value. -/
def remote_set_restore_from_stable_storage (flag : Bool) (r : Remote) : Remote :=
  { r with transient := { r.transient with skip_next_save := flag } }

/-- Dispatch one orchestrator call to the interface function it invokes. -/
def applyCall (r : Remote) : RemoteCall → Remote
  | RemoteCall.initStableStorage len => remote_init_stable_storage len r
  | RemoteCall.restoreStableStorage offset bytes =>
    remote_restore_stable_storage offset bytes r
  | RemoteCall.setRestoreFromStableStorage flag =>
    remote_set_restore_from_stable_storage flag r

/-- Apply a sequence of orchestrator calls to a remote. -/
def applyCalls (r : Remote) (calls : List RemoteCall) : Remote :=
  calls.foldl applyCall r

/-- A trivial single-byte codec on `Nat` used to instantiate witnesses: a
value below 256 encodes as the single byte itself, and decoding consumes
exactly one byte. -/
def byteCodec : SerdeCodec Nat :=
  { enc := fun n => some [n % 256]
    dec := fun bs =>
      match bs with
      | b :: _ => some (b, 1)
      | [] => none }

/-- Concrete header used for the C5 counterexample and witness: maximal
`header_length`, empty content. -/
def hdrC5 : Header :=
  { header_length := 4
    content_length := 0
    content_format := DataFormatType.MsgPack
    content_schema_version := 0
    pre_upgrade_instruction_count := 0 }

/-- The calls the restore orchestrator issues for `hdrC5`'s bytes. -/
def callsC5 : List RemoteCall :=
  [RemoteCall.initStableStorage 40,
    RemoteCall.restoreStableStorage 0 (Header.as_bytes hdrC5),
    RemoteCall.setRestoreFromStableStorage true]

/-- A remote whose `skip_next_save` flag starts out cleared. -/
def remoteC5 : Remote := ⟨[], ⟨false, 0⟩⟩

theorem natToLE_length (n v : Nat) : (natToLE n v).length = n := by
  induction n generalizing v with
  | zero => rfl
  | succ k ih => simp [natToLE, ih]

theorem leToNat_natToLE (n v : Nat) (h : v < 256 ^ n) : leToNat (natToLE n v) = v := by
  induction n generalizing v with
  | zero => simp [pow_zero, Nat.lt_one_iff] at h; simp [natToLE, leToNat, h]
  | succ k ih =>
    have hdiv : v / 256 < 256 ^ k := by
      rw [Nat.div_lt_iff_lt_mul (by norm_num : 0 < 256)]
      calc v < 256 ^ (k + 1) := h
        _ = 256 ^ k * 256 := by rw [pow_succ]
    simp only [natToLE, leToNat, ih (v / 256) hdiv]
    omega

theorem ofU64_toU64 (f : DataFormatType) : DataFormatType.ofU64 f.toU64 = f := by
  cases f <;> rfl

theorem as_bytes_length (h : Header) : h.as_bytes.length = 40 := by
  simp [Header.as_bytes, natToLE_length]

/-- Reading one word from a stream starting with the encoding of an in-range
value yields that value and the remaining stream. -/
theorem read_u64_natToLE (v : Nat) (hv : v < 256 ^ 8) (l : List Nat) :
    read_u64 (natToLE 8 v ++ l) = some (v, l) := by
  have hle := leToNat_natToLE 8 v hv
  simp only [natToLE] at hle ⊢
  simp only [List.cons_append, List.nil_append, read_u64, hle]

theorem read_n_u64_succ (n v : Nat) (hv : v < 256 ^ 8) (l : List Nat) :
    read_n_u64 (n + 1) (natToLE 8 v ++ l) =
      Option.map (fun p => (v :: p.1, p.2)) (read_n_u64 n l) := by
  simp only [read_n_u64, read_u64_natToLE v hv]
  cases hn : read_n_u64 n l with
  | none => rfl
  | some p => cases p with | mk vs rest => rfl

/-- Reading `NumFields` words from a stream that starts with four encoded
in-range values yields those values and the remaining stream. -/
theorem read_n_u64_numfields (a b c d : Nat)
    (ha : a < 256 ^ 8) (hb : b < 256 ^ 8) (hc : c < 256 ^ 8) (hd : d < 256 ^ 8)
    (l : List Nat) :
    read_n_u64 NumFields
        (natToLE 8 a ++ (natToLE 8 b ++ (natToLE 8 c ++ (natToLE 8 d ++ l)))) =
      some ([a, b, c, d], l) := by
  rw [show NumFields = 3 + 1 from rfl, read_n_u64_succ 3 a ha]
  rw [show (3 : Nat) = 2 + 1 from rfl, read_n_u64_succ 2 b hb]
  rw [show (2 : Nat) = 1 + 1 from rfl, read_n_u64_succ 1 c hc]
  rw [show (1 : Nat) = 0 + 1 from rfl, read_n_u64_succ 0 d hd]
  rfl

/-- Decoding the encoding of a header with in-range fields succeeds, consumes
all 40 bytes, and recovers every field except that the decoded
`header_length` is always `NumFields` (the value `as_bytes` emits). -/
theorem new_from_reader_as_bytes (h : Header) (rest : List Nat)
    (hcl : h.content_length < 2 ^ 64) (hver : h.content_schema_version < 2 ^ 64)
    (hpre : h.pre_upgrade_instruction_count < 2 ^ 64)
    (hfmt : h.content_format ≠ DataFormatType.Unknown) :
    Header.new_from_reader (h.as_bytes ++ rest) =
      Outcome.ok ({ h with header_length := NumFields }, 40) := by
  obtain ⟨hl, cl, fmt, ver, pre⟩ := h
  have h256 : (2 : Nat) ^ 64 = 256 ^ 8 := by norm_num
  rw [h256] at hcl hver hpre
  have hfm : DataFormatType.toU64 fmt < 256 ^ 8 := by
    cases fmt <;> norm_num [DataFormatType.toU64]
  have hnf : NumFields < 256 ^ 8 := by norm_num [NumFields]
  simp only [Header.as_bytes, List.append_assoc]
  simp only [Header.new_from_reader, read_u64_natToLE NumFields hnf]
  rw [if_neg (lt_irrefl NumFields)]
  rw [read_n_u64_numfields cl (DataFormatType.toU64 fmt) ver pre hcl hfm hver hpre rest]
  simp only [Header.new_from_vec]
  rw [ofU64_toU64]
  simp [hfmt, NumFields]

theorem writeAt_empty (pos : Nat) (bs : List Nat) :
    writeAt [] pos bs = List.replicate pos 0 ++ bs := by
  have hz : pos - (pos + bs.length) = 0 := by omega
  simp [writeAt, List.take_replicate, List.drop_replicate, hz]

theorem writeAt_zero (data bs : List Nat) :
    writeAt data 0 bs = bs ++ data.drop bs.length := by
  simp [writeAt]

/-- C2 (amended): for every header whose `header_length` equals the compiled
field count `NumFields`, whose `content_format` is not `Unknown` and whose
numeric fields fit in a `u64`, decoding the bytes produced by `as_bytes`
yields exactly the original header (and consumes all 40 bytes).  Headers with
`header_length < NumFields` decode to `header_length = NumFields` instead,
because `as_bytes` always emits `NumFields` as the length word. -/
theorem c2_header_encode_decode_roundtrip (h : Header)
    (hlen : h.header_length = NumFields)
    (hfmt : h.content_format ≠ DataFormatType.Unknown)
    (hcl : h.content_length < 2 ^ 64) (hver : h.content_schema_version < 2 ^ 64)
    (hpre : h.pre_upgrade_instruction_count < 2 ^ 64) :
    Header.new_from_reader h.as_bytes = Outcome.ok (h, 40) := by
  obtain ⟨hl, cl, fmt, ver, pre⟩ := h
  have hl4 : hl = NumFields := hlen
  subst hl4
  have hrt := new_from_reader_as_bytes ⟨NumFields, cl, fmt, ver, pre⟩ [] hcl hver hpre hfmt
  rw [List.append_nil] at hrt
  exact hrt

/-- C2 witness: a concrete maximal-length header round-trips exactly. -/
theorem c2_header_encode_decode_roundtrip_witness :
    Header.new_from_reader
        (Header.as_bytes ⟨4, 100, DataFormatType.MsgPack, 10, 100⟩) =
      Outcome.ok (⟨4, 100, DataFormatType.MsgPack, 10, 100⟩, 40) :=
  c2_header_encode_decode_roundtrip ⟨4, 100, DataFormatType.MsgPack, 10, 100⟩
    rfl (by decide) (by norm_num) (by norm_num) (by norm_num)

/-- C2 counterexample: for the valid header `hdrLenZero` (header_length 0 is
at most `NumFields`, format is MsgPack), decode-of-encode yields a header
whose `header_length` is `NumFields`, which differs from the original, so the
round-trip claim fails as stated. -/
theorem c2_counterexample :
    Header.new_from_reader (Header.as_bytes hdrLenZero) =
      Outcome.ok ({ hdrLenZero with header_length := NumFields }, 40) ∧
    ({ hdrLenZero with header_length := NumFields } : Header) ≠ hdrLenZero := by
  decide

/-- C3: `Header::new_from_reader` is not total.  For declared header lengths
0, 1, 2 and 3 — all of which pass the `header_length > NumFields` check — the
field vector is shorter than the indices `fields[1]`, `fields[2]`, `fields[3]`
that `new_from_vec` then accesses, and the code panics instead of returning a
`Header` or an `Error`.  The four concrete inputs below declare lengths 0, 1,
2 and 3 and supply exactly that many field words. -/
theorem c3_short_declared_length_panics :
    Header.new_from_reader (natToLE 8 0) = Outcome.panicked ∧
    Header.new_from_reader (natToLE 8 1 ++ natToLE 8 1) = Outcome.panicked ∧
    Header.new_from_reader (natToLE 8 2 ++ natToLE 8 0 ++ natToLE 8 1) =
      Outcome.panicked ∧
    Header.new_from_reader (natToLE 8 3 ++ natToLE 8 0 ++ natToLE 8 1 ++ natToLE 8 0) =
      Outcome.panicked := by
  decide

/-- C4: when the decoded format tag maps to `Unknown`, the error produced by
`Header::new_from_vec` is `InvalidContentFormat(fields[3])` — the
`pre_upgrade_instruction_count` field — not the format tag `fields[1]`.  The
input below declares 4 fields with format tag 5 (which maps to `Unknown`) and
`pre_upgrade_instruction_count` 9: the error carries 9, not 5. -/
theorem c4_invalid_format_error_carries_wrong_field :
    Header.new_from_reader
        (natToLE 8 4 ++ natToLE 8 0 ++ natToLE 8 5 ++ natToLE 8 0 ++ natToLE 8 9) =
      Outcome.err (HeaderError.InvalidContentFormat 9) ∧
    DataFormatType.ofU64 5 = DataFormatType.Unknown ∧ (9 : Nat) ≠ 5 := by
  decide

/-- C1: with the adapter selected by the header's format obeying the serde
round-trip contract (`dec` consumes exactly the bytes `enc` produced and
recovers the value), a V2 save of `t` into an empty seekable writer followed
by a V2 restore from the resulting bytes succeeds, returns a value equal to
`t`, and returns a `Header` whose `content_length` equals the exact number of
bytes the adapter wrote for the content — the bytes between the end of the
40-byte reserved header region and the end of the stream. -/
theorem c1_v2_save_restore_roundtrip {T : Type} (mp bc : SerdeCodec T)
    (intf : Interface) (t : T) (h : Header) (transient : Transient)
    (c : SerdeCodec T) (bs : List Nat)
    (hskip : transient.skip_next_save = false)
    (hsel : selectCodec mp bc h.content_format = some c)
    (henc : c.enc t = some bs)
    (hdec : ∀ rest, c.dec (bs ++ rest) = some (t, bs.length))
    (hcl : bs.length < 2 ^ 64) (hver : h.content_schema_version < 2 ^ 64)
    (hpre : intf.instruction_counter < 2 ^ 64) :
    ∃ w : ByteCursor,
      v2_save mp bc intf ⟨[], 0⟩ t h transient = Except.ok w ∧
      w.data.length = 40 + bs.length ∧
      v2_restore mp bc intf ⟨w.data, 0⟩ =
        Outcome.ok
          ({ h with
              header_length := NumFields,
              content_length := bs.length,
              pre_upgrade_instruction_count := intf.instruction_counter },
            ⟨false, intf.instruction_counter⟩, t) := by
  obtain ⟨hl, cl0, fmt, ver, pre0⟩ := h
  cases fmt with
  | Unknown => simp [selectCodec] at hsel
  | MsgPack =>
    replace hsel : c = mp := by simpa [selectCodec] using hsel.symm
    subst hsel
    refine ⟨⟨Header.as_bytes
        ⟨hl, bs.length, DataFormatType.MsgPack, ver, intf.instruction_counter⟩ ++ bs,
      40⟩, ?_, ?_, ?_⟩
    · simp only [v2_save, hskip, Bool.false_eq_true, if_false, ByteCursor.streamPosition,
        Header.num_all_fields_bytes, NumFields, ByteCursor.seek, ByteCursor.write, henc]
      rw [writeAt_empty, writeAt_zero, as_bytes_length,
        List.drop_left' (by simp : (List.replicate ((4 + 1) * 8) (0 : Nat)).length = 40)]
      norm_num
    · simp [as_bytes_length]
    · have hdec0 : c.dec bs = some (t, bs.length) := by simpa using hdec []
      simp only [v2_restore, List.drop_zero]
      rw [new_from_reader_as_bytes
        ⟨hl, bs.length, DataFormatType.MsgPack, ver, intf.instruction_counter⟩ bs
        hcl hver hpre (by simp)]
      simp only [Nat.zero_add]
      rw [List.drop_left' (as_bytes_length _), hdec0]
  | Bincode =>
    replace hsel : c = bc := by simpa [selectCodec] using hsel.symm
    subst hsel
    refine ⟨⟨Header.as_bytes
        ⟨hl, bs.length, DataFormatType.Bincode, ver, intf.instruction_counter⟩ ++ bs,
      40⟩, ?_, ?_, ?_⟩
    · simp only [v2_save, hskip, Bool.false_eq_true, if_false, ByteCursor.streamPosition,
        Header.num_all_fields_bytes, NumFields, ByteCursor.seek, ByteCursor.write, henc]
      rw [writeAt_empty, writeAt_zero, as_bytes_length,
        List.drop_left' (by simp : (List.replicate ((4 + 1) * 8) (0 : Nat)).length = 40)]
      norm_num
    · simp [as_bytes_length]
    · have hdec0 : c.dec bs = some (t, bs.length) := by simpa using hdec []
      simp only [v2_restore, List.drop_zero]
      rw [new_from_reader_as_bytes
        ⟨hl, bs.length, DataFormatType.Bincode, ver, intf.instruction_counter⟩ bs
        hcl hver hpre (by simp)]
      simp only [Nat.zero_add]
      rw [List.drop_left' (as_bytes_length _), hdec0]

/-- C1 witness: saving the byte value 7 under a MsgPack header and restoring
it round-trips, with `content_length` 1 and a 41-byte stream. -/
theorem c1_v2_save_restore_roundtrip_witness :
    ∃ w : ByteCursor,
      v2_save byteCodec byteCodec ⟨9⟩ ⟨[], 0⟩ 7
          ⟨4, 0, DataFormatType.MsgPack, 3, 0⟩ ⟨false, 5⟩ = Except.ok w ∧
      w.data.length = 40 + [(7 : Nat)].length ∧
      v2_restore byteCodec byteCodec ⟨9⟩ ⟨w.data, 0⟩ =
        Outcome.ok
          ({ (⟨4, 0, DataFormatType.MsgPack, 3, 0⟩ : Header) with
              header_length := NumFields,
              content_length := [(7 : Nat)].length,
              pre_upgrade_instruction_count := (9 : Nat) },
            ⟨false, 9⟩, 7) :=
  c1_v2_save_restore_roundtrip byteCodec byteCodec ⟨9⟩ 7
    ⟨4, 0, DataFormatType.MsgPack, 3, 0⟩ ⟨false, 5⟩ byteCodec [7]
    rfl rfl rfl (fun rest => rfl) (by norm_num) (by norm_num) (by norm_num)

/-- C9: when `transient.skip_next_save` is set, `v2::save` takes the skip
branch: it writes no bytes, leaves the writer's contents and position
unchanged, performs no header backfill, and returns `Ok(())`. -/
theorem c9_skip_next_save_writes_nothing {T : Type} (mp bc : SerdeCodec T)
    (intf : Interface) (w : ByteCursor) (t : T) (header : Header)
    (transient : Transient) (hskip : transient.skip_next_save = true) :
    v2_save mp bc intf w t header transient = Except.ok w := by
  simp [v2_save, hskip]

/-- C9 witness: a concrete skipped save returns the untouched writer. -/
theorem c9_skip_next_save_writes_nothing_witness :
    v2_save byteCodec byteCodec ⟨3⟩ ⟨[1, 2], 1⟩ 7
        ⟨4, 0, DataFormatType.MsgPack, 0, 0⟩ ⟨true, 5⟩ = Except.ok ⟨[1, 2], 1⟩ :=
  c9_skip_next_save_writes_nothing byteCodec byteCodec ⟨3⟩ ⟨[1, 2], 1⟩ 7
    ⟨4, 0, DataFormatType.MsgPack, 0, 0⟩ ⟨true, 5⟩ rfl

/-- C7: when the header decodes and the content decodes, `v2::restore`
returns the decoded value, the decoded header and a fresh `Transient` even
when the number of content bytes consumed (`n`) disagrees with the header's
`content_length` — the mismatch is only logged as a warning. -/
theorem c7_content_length_mismatch_only_warns {T : Type} (mp bc : SerdeCodec T)
    (intf : Interface) (r : ByteCursor) (hdr : Header) (consumed : Nat)
    (c : SerdeCodec T) (t : T) (n : Nat)
    (hhdr : Header.new_from_reader (r.data.drop r.pos) = Outcome.ok (hdr, consumed))
    (hsel : selectCodec mp bc hdr.content_format = some c)
    (hdec : c.dec (r.data.drop (r.pos + consumed)) = some (t, n))
    (_hmismatch : n ≠ hdr.content_length) :
    v2_restore mp bc intf r =
      Outcome.ok (hdr, ⟨false, intf.instruction_counter⟩, t) := by
  cases hfmt : hdr.content_format with
  | Unknown => rw [hfmt] at hsel; exact absurd hsel (by simp [selectCodec])
  | MsgPack =>
    rw [hfmt] at hsel
    have hcmp : c = mp := by
      simpa [selectCodec] using hsel.symm
    subst hcmp
    simp [v2_restore, hhdr, hfmt, hdec]
  | Bincode =>
    rw [hfmt] at hsel
    have hcbc : c = bc := by
      simpa [selectCodec] using hsel.symm
    subst hcbc
    simp [v2_restore, hhdr, hfmt, hdec]

/-- C7 witness: a stream whose header claims `content_length = 5` while the
content decode consumes 1 byte still restores successfully. -/
theorem c7_content_length_mismatch_only_warns_witness :
    v2_restore byteCodec byteCodec ⟨3⟩
        ⟨Header.as_bytes ⟨4, 5, DataFormatType.MsgPack, 0, 0⟩ ++ [7], 0⟩ =
      Outcome.ok (⟨4, 5, DataFormatType.MsgPack, 0, 0⟩, ⟨false, 3⟩, 7) :=
  c7_content_length_mismatch_only_warns byteCodec byteCodec ⟨3⟩
    ⟨Header.as_bytes ⟨4, 5, DataFormatType.MsgPack, 0, 0⟩ ++ [7], 0⟩
    ⟨4, 5, DataFormatType.MsgPack, 0, 0⟩ 40 byteCodec 7 1
    (by decide) rfl (by decide) (by decide)

/-- C10: every successful `v1::restore` synthesizes a header with format
`MsgPack`, `content_length` equal to the reader's stream position after
decoding, and `header_length = 0` and `pre_upgrade_instruction_count = 0`
from `Default`; its `num_content_and_header_bytes` is therefore
`8 + content_length`, not the `40 + content_length` of a maximal V2 header. -/
theorem c10_v1_restore_synthetic_header {T : Type} (mp : SerdeCodec T)
    (intf : Interface) (r : ByteCursor) (t : T) (n : Nat)
    (hdec : mp.dec (r.data.drop r.pos) = some (t, n)) :
    v1_restore mp intf r =
      Except.ok (⟨0, r.pos + n, DataFormatType.MsgPack, 0, 0⟩,
        ⟨false, intf.instruction_counter⟩, t) ∧
    Header.num_content_and_header_bytes ⟨0, r.pos + n, DataFormatType.MsgPack, 0, 0⟩ =
      8 + (r.pos + n) ∧
    Header.num_content_and_header_bytes ⟨0, r.pos + n, DataFormatType.MsgPack, 0, 0⟩ ≠
      40 + (r.pos + n) := by
  refine ⟨?_, ?_, ?_⟩
  · simp [v1_restore, hdec, ByteCursor.streamPosition]
  · simp [Header.num_content_and_header_bytes]
  · simp only [Header.num_content_and_header_bytes]
    omega

/-- C10 witness: restoring one byte of v1 content synthesizes the header
`⟨0, 1, MsgPack, 0, 0⟩`, whose total region size is 9, not 41. -/
theorem c10_v1_restore_synthetic_header_witness :
    v1_restore byteCodec ⟨3⟩ ⟨[7], 0⟩ =
      Except.ok (⟨0, 0 + 1, DataFormatType.MsgPack, 0, 0⟩, ⟨false, 3⟩, 7) ∧
    Header.num_content_and_header_bytes ⟨0, 0 + 1, DataFormatType.MsgPack, 0, 0⟩ =
      8 + (0 + 1) ∧
    Header.num_content_and_header_bytes ⟨0, 0 + 1, DataFormatType.MsgPack, 0, 0⟩ ≠
      40 + (0 + 1) :=
  c10_v1_restore_synthetic_header byteCodec ⟨3⟩ ⟨[7], 0⟩ 7 1 rfl

/-- C8: the default-if-older migration helper produces the default — without
running the underlying decode and leaving the deserializer untouched — when
the stored schema version is strictly below the target version, and runs the
ordinary decode, wrapping any error with the diagnostic tag, when the stored
version is at or above it. -/
theorem c8_default_if_lt_version {T D : Type} (V tag stored : Nat) (dflt : T)
    (dec : D → Except String (T × D)) (d : D) :
    (stored < V →
      deserialize_default_if_lt_version V tag stored dflt dec d =
        Except.ok (dflt, d)) ∧
    (V ≤ stored →
      deserialize_default_if_lt_version V tag stored dflt dec d =
        (dec d).mapError
          fun e => "Migration error. Tag " ++ toString tag ++ " Error: " ++ e) := by
  constructor
  · intro hlt
    simp [deserialize_default_if_lt_version, hlt, Except.mapError]
  · intro hge
    simp [deserialize_default_if_lt_version, Nat.not_lt.mpr hge]

/-- C8 witness: below the target version the default is produced even though
the underlying decode would fail; at the target version the decode runs. -/
theorem c8_default_if_lt_version_witness :
    deserialize_default_if_lt_version 2 7 1 (0 : Nat)
        (fun _ : Nat => Except.error "boom") 3 = Except.ok (0, 3) ∧
    deserialize_default_if_lt_version 2 7 2 (0 : Nat)
        (fun d : Nat => Except.ok (5, d)) 3 = Except.ok (5, 3) := by
  constructor
  · exact (c8_default_if_lt_version 2 7 1 0 (fun _ => Except.error "boom") 3).1
      (by norm_num)
  · have h := (c8_default_if_lt_version 2 7 2 0 (fun d : Nat => Except.ok (5, d)) 3).2
      (by norm_num)
    simpa [Except.mapError] using h

theorem applyCalls_append_single (r : Remote) (l : List RemoteCall) (x : RemoteCall) :
    applyCalls r (l ++ [x]) = applyCall (applyCalls r l) x := by
  simp [applyCalls, List.foldl_append]

/-- C5 (amended): after a chunked restore in which all window uploads
succeed, the orchestrator's final remote call is
`set_restore_from_stable_storage(true)`, which leaves the remote's
`Transient.skip_next_save` equal to `true` — i.e. it arms the skip flag so
the next snapshot save is skipped and the uploaded bytes are not clobbered
(it does not clear the flag as the claim states). -/
theorem c5_final_call_sets_skip_next_save (input : List Nat) (ro : Option Nat)
    (calls : List RemoteCall)
    (hrun : restore_stable_storage_calls input ro = Outcome.ok calls) :
    calls.getLast? = some (RemoteCall.setRestoreFromStableStorage true) ∧
    ∀ r : Remote, (applyCalls r calls).transient.skip_next_save = true := by
  have hshape : ∃ pre, calls = pre ++ [RemoteCall.setRestoreFromStableStorage true] := by
    revert hrun
    rw [restore_stable_storage_calls]
    cases restore_upload_calls input ro with
    | ok pre =>
      intro hrun
      exact ⟨pre, ((Outcome.ok.injEq _ _).mp hrun).symm⟩
    | err e => intro hrun; exact Outcome.noConfusion hrun
    | panicked => intro hrun; exact Outcome.noConfusion hrun
  obtain ⟨pre, rfl⟩ := hshape
  constructor
  · rw [List.getLast?_concat]
  · intro r
    rw [applyCalls_append_single]
    rfl

/-- C5 counterexample: restoring the 40 header bytes of `hdrC5` into a remote
whose `skip_next_save` starts out `false` issues exactly
`[init_stable_storage 40, restore_stable_storage 0 header_bytes,
set_restore_from_stable_storage true]`, and applying those calls leaves
`skip_next_save = true`, not `false` as the claim states. -/
theorem c5_counterexample :
    restore_stable_storage_calls (Header.as_bytes hdrC5) none = Outcome.ok callsC5 ∧
    remoteC5.transient.skip_next_save = false ∧
    (applyCalls remoteC5 callsC5).transient.skip_next_save ≠ false := by
  refine ⟨by decide, rfl, ?_⟩
  intro hcontra
  cases hcontra

/-- C5 witness: the concrete run of the counterexample input also
instantiates the amended theorem. -/
theorem c5_final_call_sets_skip_next_save_witness :
    callsC5.getLast? = some (RemoteCall.setRestoreFromStableStorage true) ∧
    ∀ r : Remote, (applyCalls r callsC5).transient.skip_next_save = true :=
  c5_final_call_sets_skip_next_save (Header.as_bytes hdrC5) none callsC5 (by decide)

/-- C6: for a backup of a remote region of `total = num_all_fields_bytes +
content_length` bytes (format not `Unknown`): the backup succeeds returning
the concatenated windows exactly when the accumulated number of bytes
fetched equals `total`, and otherwise fails with
`BackupLengthMismatch(total, actual)`; the accumulated count is invariant
under any reordering (completion order) of the windows; the partition issues
`total / BACKUP_CHUNK_SIZE + 1` windows; and when `total` is an exact
multiple of the window size the last window starts at offset `total` and is
empty. -/
theorem c6_backup_length_verification (fetch : Nat → Nat → List Nat) (hdr : Header)
    (total : Nat)
    (hfmt : hdr.content_format ≠ DataFormatType.Unknown)
    (htotal : total = hdr.num_all_fields_bytes + hdr.content_length) :
    (((backupWindows fetch total).map List.length).sum = total →
      backup_stable_storage fetch hdr =
        Except.ok (backupWindows fetch total).flatten) ∧
    (((backupWindows fetch total).map List.length).sum ≠ total →
      backup_stable_storage fetch hdr =
        Except.error (ErrorKind.BackupLengthMismatch total
          (((backupWindows fetch total).map List.length).sum))) ∧
    (∀ reordered : List (List Nat), reordered.Perm (backupWindows fetch total) →
      (reordered.map List.length).sum =
        ((backupWindows fetch total).map List.length).sum) ∧
    (backupWindows fetch total).length = total / BACKUP_CHUNK_SIZE + 1 ∧
    (BACKUP_CHUNK_SIZE ∣ total →
      (backupWindows fetch total)[total / BACKUP_CHUNK_SIZE]? = some []) := by
  subst htotal
  refine ⟨?_, ?_, ?_, ?_, ?_⟩
  · intro hsum
    simp [backup_stable_storage, hfmt, hsum]
  · intro hsum
    simp [backup_stable_storage, hfmt, hsum]
  · intro reordered hp
    exact (hp.map List.length).sum_eq
  · simp [backupWindows]
  · intro hdvd
    have hlt : (hdr.num_all_fields_bytes + hdr.content_length) / BACKUP_CHUNK_SIZE <
        (hdr.num_all_fields_bytes + hdr.content_length) / BACKUP_CHUNK_SIZE + 1 := by
      omega
    simp [backupWindows, List.getElem?_map, List.getElem?_range hlt,
      backup_stable_storage_chunk, Nat.div_mul_cancel hdvd]

/-- C6 witness: a 43-byte region (header `⟨4, 3, MsgPack, 0, 0⟩`) fetched by a
remote that answers every window in full. -/
theorem c6_backup_length_verification_witness :
    (((backupWindows (fun _ limit => List.replicate limit 0) 43).map List.length).sum =
        43 →
      backup_stable_storage (fun _ limit => List.replicate limit 0)
          ⟨4, 3, DataFormatType.MsgPack, 0, 0⟩ =
        Except.ok (backupWindows (fun _ limit => List.replicate limit 0) 43).flatten) ∧
    (((backupWindows (fun _ limit => List.replicate limit 0) 43).map List.length).sum ≠
        43 →
      backup_stable_storage (fun _ limit => List.replicate limit 0)
          ⟨4, 3, DataFormatType.MsgPack, 0, 0⟩ =
        Except.error (ErrorKind.BackupLengthMismatch 43
          (((backupWindows (fun _ limit => List.replicate limit 0) 43).map
              List.length).sum))) ∧
    (∀ reordered : List (List Nat),
      reordered.Perm (backupWindows (fun _ limit => List.replicate limit 0) 43) →
      (reordered.map List.length).sum =
        ((backupWindows (fun _ limit => List.replicate limit 0) 43).map
            List.length).sum) ∧
    (backupWindows (fun _ limit => List.replicate limit 0) 43).length =
      43 / BACKUP_CHUNK_SIZE + 1 ∧
    (BACKUP_CHUNK_SIZE ∣ 43 →
      (backupWindows (fun _ limit => List.replicate limit 0) 43)[43 / BACKUP_CHUNK_SIZE]? =
        some []) :=
  c6_backup_length_verification (fun _ limit => List.replicate limit 0)
    ⟨4, 3, DataFormatType.MsgPack, 0, 0⟩ 43 (by decide)
    (by norm_num [Header.num_all_fields_bytes, NumFields])

end StableStorage
